import Mathlib

/-!
Shallow embedding of the Comparison Aggregation Engine of the
`API-de-productos-en-Go` repository (service layer `ItemServiceImpl` in the
repository's README, error taxonomy from `internal/errors/errors.go`,
store contract from `internal/repositories`).

Conventions of the embedding:
* Go `int64` identifiers are modelled as `Int` (no arithmetic is performed on
  them, so overflow is irrelevant).
* Go `float64` prices and ratings are modelled as `Int`: the engine only
  copies and orders these values, it never does float arithmetic on them.
* A Go `map[string]interface{}` (the `Specifications` type) is modelled as an
  association list `List (String × SpecValue)`; iterating the map visits each
  distinct key once, which is modelled by `mapKeys` (deduplicated key list).
* The Item Store (`ItemRepository`) is modelled as a function argument
  returning `Except GoError`; the engine never queries the store on a code
  path exactly when its result is independent of that function argument.
* Go string ordering (`sort.Strings`) is bytewise lexicographic; it is
  modelled by the executable comparison `strLe` on the character lists.
-/

deriving instance DecidableEq for Except

namespace ProductAPI

/-- Arbitrary JSON-compatible specification value (`interface{}` in Go).
Only key presence ever matters to the engine; values are carried opaquely. -/
inductive SpecValue where
  | str (s : String)
  | num (n : Int)
  | boolean (b : Bool)
  | null
deriving DecidableEq, Repr

/-- `models.Item`: a product as stored and served. -/
structure Item where
  id : Int
  name : String
  imageURL : String
  description : String
  price : Int
  rating : Int
  specifications : List (String × SpecValue)
deriving DecidableEq, Repr

/-- The distinct keys of a Go map modelled as an association list: iteration
over `map[string]interface{}` visits each key exactly once. -/
def mapKeys (s : List (String × SpecValue)) : List String :=
  (s.map Prod.fst).dedup

/-- Underlying Go errors that can reach the service layer from a store call. -/
inductive GoError where
  | errNotFound
  | ctxCanceled
  | other (msg : String)
deriving DecidableEq, Repr

/-- `errors.ErrorCode` from `internal/errors/errors.go`. -/
inductive ErrorCode where
  | notFound
  | badRequest
  | internalServer
  | validation
  | tooManyRequests
deriving DecidableEq, Repr

/-- `errors.DomainError`: code, message and optional wrapped cause. -/
structure DomainError where
  code : ErrorCode
  message : String
  err : Option GoError
deriving DecidableEq, Repr

/-- `errors.NewDomainError`. -/
def NewDomainError (code : ErrorCode) (message : String) (err : Option GoError) :
    DomainError :=
  { code := code, message := message, err := err }

/-- `errors.NewNotFoundError resource id`: the `id` argument is `interface{}`
in Go and is rendered by `%v`; the embedding takes the rendered string
(`"<nil>"` for a nil argument, the decimal digits for an int64). -/
def NewNotFoundError (resource : String) (idStr : String) : DomainError :=
  NewDomainError ErrorCode.notFound
    (resource ++ " with id " ++ idStr ++ " not found") none

/-- `errors.NewValidationError`. -/
def NewValidationError (message : String) (err : Option GoError) : DomainError :=
  NewDomainError ErrorCode.validation message err

/-- `errors.NewInternalServerError`. -/
def NewInternalServerError (message : String) (err : Option GoError) : DomainError :=
  NewDomainError ErrorCode.internalServer message err

/-- Bytewise-style lexicographic comparison on character lists, the order
`sort.Strings` uses (Go compares strings bytewise; on the character level this
is the same order for the ASCII attribute names at play). -/
def charListLe : List Char → List Char → Bool
  | [], _ => true
  | _ :: _, [] => false
  | a :: as, b :: bs =>
    if a.toNat < b.toNat then true
    else if b.toNat < a.toNat then false
    else charListLe as bs

/-- Go string `<=`, executable. -/
def strLe (a b : String) : Bool :=
  charListLe a.data b.data

/-- The ascending order used by `sort.Strings`, as a binary relation. -/
def strLeRel (a b : String) : Prop :=
  strLe a b = true

instance : DecidableRel strLeRel :=
  fun a b => instDecidableEqBool (strLe a b) true

/-- `sort.Strings`: ascending lexicographic sort. The sorted rearrangement of
a list is unique, so any correct ascending sort is extensionally the same
function; the embedding uses insertion sort. -/
def sortStrings (l : List String) : List String :=
  l.insertionSort strLeRel

/-- `sort.Float64s` applied to the modelled numeric values; same remark on
extensional uniqueness of sorting as for `sortStrings`. -/
def sortInts (l : List Int) : List Int :=
  l.insertionSort (fun a b => a ≤ b)

/-- `models.PriceRange`. -/
structure PriceRange where
  min : Int
  max : Int
deriving DecidableEq, Repr

/-- `models.RatingRange`. -/
structure RatingRange where
  min : Int
  max : Int
deriving DecidableEq, Repr

/-- `models.ComparisonDetails`; the Go `map[int64][]string` of unique specs is
modelled as an association list (one entry per item identifier). -/
structure ComparisonDetails where
  priceRange : PriceRange
  ratingRange : RatingRange
  commonSpecs : List String
  uniqueSpecs : List (Int × List String)
deriving DecidableEq, Repr

/-- The zero value `models.ComparisonDetails{}`. -/
def emptyComparisonDetails : ComparisonDetails :=
  { priceRange := { min := 0, max := 0 }
    ratingRange := { min := 0, max := 0 }
    commonSpecs := []
    uniqueSpecs := [] }

/-- `models.CompareResponse`. -/
structure CompareResponse where
  items : List Item
  comparison : ComparisonDetails
deriving DecidableEq, Repr

/-- Loop of `uniqueIDs`: walk the list keeping ids not yet seen. -/
def uniqueIDsAux : List Int → List Int → List Int
  | [], _ => []
  | id :: rest, seen =>
    if id ∈ seen then uniqueIDsAux rest seen
    else id :: uniqueIDsAux rest (id :: seen)

/-- `uniqueIDs` from the service: removes duplicate ids, keeping the first
occurrence of each (the Go loop over a `seen` set with append). -/
def uniqueIDs (ids : List Int) : List Int :=
  uniqueIDsAux ids []

/-- `missingItemIDs requested found`: the requested ids whose id is not the
id of any found item (`foundMap` lookup in Go). -/
def missingItemIDs (requested : List Int) (found : List Item) : List Int :=
  requested.filter (fun id => !((found.map Item.id).contains id))

/-- The distinct spec keys over all items, in first-appearance order: the
domain of the `specCounts` map built by `findCommonSpecs`. -/
def specAllKeys (items : List Item) : List String :=
  (items.flatMap (fun it => mapKeys it.specifications)).dedup

/-- `specCounts[key]`: each item increments the counter once for each
distinct key it contains, so the count is the number of items whose
specification map contains `key`. -/
def specCount (items : List Item) (key : String) : Nat :=
  (items.filter (fun it => (mapKeys it.specifications).contains key)).length

/-- `findCommonSpecs`: keys whose count equals the number of items, sorted
ascending (`sort.Strings`); the Go map iteration order is irrelevant because
the result is sorted. -/
def findCommonSpecs (items : List Item) : List String :=
  if items.isEmpty then []
  else
    sortStrings
      ((specAllKeys items).filter
        (fun k => specCount items k == items.length))

/-- `specMap[key]` of `findUniqueSpecs`: the set of item identifiers whose
specification map contains `key`, modelled as a deduplicated id list (the Go
inner `map[int64]bool` is keyed by item id). -/
def specOwners (items : List Item) (key : String) : List Int :=
  ((items.filter
      (fun it => (mapKeys it.specifications).contains key)).map Item.id).dedup

/-- The keys selected by the `len(ids) == 1` test of `findUniqueSpecs`:
keys owned by exactly one item identifier. -/
def uniqueSpecKeys (items : List Item) : List String :=
  (specAllKeys items).filter (fun k => (specOwners items k).length == 1)

/-- The identifiers that receive at least one unique key: the domain of the
`unique` map built by `findUniqueSpecs`. -/
def uniqueOwnerIDs (items : List Item) : List Int :=
  ((uniqueSpecKeys items).flatMap (fun k => specOwners items k)).dedup

/-- `findUniqueSpecs`: every key owned by exactly one item identifier is
appended to that identifier's list, and each list is then sorted; identifiers
owning no such key are never inserted. The association-list entry order
models the (irrelevant) Go map iteration order. -/
def findUniqueSpecs (items : List Item) : List (Int × List String) :=
  (uniqueOwnerIDs items).map
    (fun id =>
      (id,
        sortStrings
          ((uniqueSpecKeys items).filter
            (fun k => (specOwners items k).contains id))))

/-- `generateComparison`: price and rating ranges from the sorted value
lists, plus common and unique specs. -/
def generateComparison (items : List Item) : ComparisonDetails :=
  if items.isEmpty then emptyComparisonDetails
  else
    let prices := sortInts (items.map Item.price)
    let ratings := sortInts (items.map Item.rating)
    { priceRange := { min := prices.headD 0, max := prices.getLastD 0 }
      ratingRange := { min := ratings.headD 0, max := ratings.getLastD 0 }
      commonSpecs := findCommonSpecs items
      uniqueSpecs := findUniqueSpecs items }

/-- Rendering of `%v` for an `[]int64`, used in the not-found message of
`CompareItems` (`fmt.Sprintf("Items con IDs %v no encontrados", missingIDs)`). -/
def goIntSliceStr (ids : List Int) : String :=
  "[" ++ String.intercalate " " (ids.map toString) ++ "]"

/-- `CompareItems`, parametrised by the store's bulk lookup (`repo.GetByIDs`).
Validation of the raw input length comes first, then deduplication, then the
single store query, the completeness check by length, and the comparison. -/
def CompareItems (store : List Int → Except GoError (List Item))
    (itemIDs : List Int) : Except DomainError CompareResponse :=
  if itemIDs.length < 2 then
    Except.error
      (NewValidationError "se requieren al menos 2 items para comparar" none)
  else if itemIDs.length > 10 then
    Except.error
      (NewValidationError "máximo 10 items pueden compararse a la vez" none)
  else
    let dedupIDs := uniqueIDs itemIDs
    match store dedupIDs with
    | Except.error e =>
        Except.error
          (NewInternalServerError
            "error al obtener los items para comparación" (some e))
    | Except.ok items =>
        if items.length ≠ dedupIDs.length then
          Except.error
            (NewNotFoundError
              ("Items con IDs " ++ goIntSliceStr (missingItemIDs dedupIDs items)
                ++ " no encontrados")
              "<nil>")
        else
          Except.ok { items := items, comparison := generateComparison items }

/-- `GetItemByID`, parametrised by the store's single-item lookup
(`repo.GetByID`). -/
def GetItemByID (store : Int → Except GoError Item) (id : Int) :
    Except DomainError Item :=
  if id ≤ 0 then
    Except.error (NewValidationError "ID inválido" none)
  else
    match store id with
    | Except.error e =>
        if e = GoError.errNotFound then
          Except.error (NewNotFoundError "Item" (toString id))
        else
          Except.error
            (NewInternalServerError "error al obtener el item" (some e))
    | Except.ok item => Except.ok item

/-- `GetAllItems`, parametrised by the store's full scan (`repo.GetAll`). -/
def GetAllItems (store : Unit → Except GoError (List Item)) :
    Except DomainError (List Item) :=
  match store () with
  | Except.error e =>
      Except.error (NewInternalServerError "error al obtener los items" (some e))
  | Except.ok items => Except.ok items

/-- Reference formulation of the spec's order-stable deduplication: keep each
element's first occurrence, delete its later duplicates, preserve order. -/
def dedupFirstOccurrence : List Int → List Int
  | [] => []
  | a :: rest => a :: dedupFirstOccurrence (rest.filter (fun x => x != a))
termination_by l => l.length
decreasing_by
  simp only [List.length_cons]
  exact Nat.lt_succ_of_le (List.length_filter_le _ _)

/-- Concrete item used in examples: two specification keys. -/
def wItemA : Item :=
  { id := 1, name := "Item 1", imageURL := "", description := "", price := 100,
    rating := 45,
    specifications := [("color", SpecValue.str "red"), ("material", SpecValue.str "cotton")] }

/-- Concrete item used in examples: three specification keys, one unique. -/
def wItemB : Item :=
  { id := 2, name := "Item 2", imageURL := "", description := "", price := 200,
    rating := 40,
    specifications := [("color", SpecValue.str "blue"), ("material", SpecValue.str "cotton"),
      ("brand", SpecValue.str "Nike")] }

/-- Concrete item whose identifier (5) is outside the requested sets used in
the examples. -/
def wItemX : Item :=
  { id := 5, name := "Stray 5", imageURL := "", description := "", price := 10,
    rating := 10, specifications := [] }

/-- Second stray item, identifier 6. -/
def wItemY : Item :=
  { id := 6, name := "Stray 6", imageURL := "", description := "", price := 20,
    rating := 20, specifications := [("weight", SpecValue.num 3)] }

/-- Item with identifier 7 and a single specification key, used twice in a
duplicate-identifier item list. -/
def wItemDup : Item :=
  { id := 7, name := "Dup", imageURL := "", description := "", price := 30,
    rating := 30, specifications := [("a", SpecValue.null)] }

/-- Store holding only `wItemA` (identifier 1). -/
def storeOnlyA : List Int → Except GoError (List Item) :=
  fun ids => if ids = [1] then Except.ok [wItemA] else Except.error (GoError.other "db")

/-- Store answering the query `[1, 2]` with the items in descending
identifier order. -/
def storeBA : List Int → Except GoError (List Item) :=
  fun ids =>
    if ids = [1, 2] then Except.ok [wItemB, wItemA] else Except.error (GoError.other "db")

/-- Store answering the query `[1, 2, 3]` with only two of the three items. -/
def storeMissing3 : List Int → Except GoError (List Item) :=
  fun ids =>
    if ids = [1, 2, 3] then Except.ok [wItemA, wItemB] else Except.error (GoError.other "db")

/-- Store answering the query `[1, 2]` with two items whose identifiers are
5 and 6 — the right count, the wrong identifiers. -/
def storeWrongIDs : List Int → Except GoError (List Item) :=
  fun ids =>
    if ids = [1, 2] then Except.ok [wItemX, wItemY] else Except.error (GoError.other "db")

/-- Single-item store: absent for 1, broken connection for 2, `wItemA`
otherwise. -/
def storeOneMixed : Int → Except GoError Item :=
  fun id =>
    if id = 1 then Except.error GoError.errNotFound
    else if id = 2 then Except.error (GoError.other "sql: connection is already closed")
    else Except.ok wItemA

/-- Full-scan store whose call fails because the caller's context was
cancelled. -/
def storeAllCanceled : Unit → Except GoError (List Item) :=
  fun _ => Except.error GoError.ctxCanceled

/-- The response `CompareItems` produces for `storeOnlyA` on input `[1, 1]`:
a single resolved item, whose two keys are simultaneously common and unique. -/
def respSingleA : CompareResponse :=
  { items := [wItemA]
    comparison :=
      { priceRange := { min := 100, max := 100 }
        ratingRange := { min := 45, max := 45 }
        commonSpecs := ["color", "material"]
        uniqueSpecs := [(1, ["color", "material"])] } }

instance : IsTotal String strLeRel :=
  ⟨by
    intro a b
    show charListLe a.data b.data = true ∨ charListLe b.data a.data = true
    generalize a.data = xs
    generalize b.data = ys
    induction xs generalizing ys with
    | nil => exact Or.inl rfl
    | cons x xs ih =>
      cases ys with
      | nil => exact Or.inr rfl
      | cons y ys =>
        by_cases h1 : x.toNat < y.toNat
        · left
          simp [charListLe, h1]
        · by_cases h2 : y.toNat < x.toNat
          · right
            simp [charListLe, h1, h2]
          · rcases ih ys with h | h
            · left
              simpa [charListLe, h1, h2] using h
            · right
              simpa [charListLe, h1, h2] using h⟩

instance : IsTrans String strLeRel :=
  ⟨by
    intro a b c hab hbc
    show charListLe a.data c.data = true
    replace hab : charListLe a.data b.data = true := hab
    replace hbc : charListLe b.data c.data = true := hbc
    generalize a.data = xs at hab ⊢
    generalize b.data = ys at hab hbc
    generalize c.data = zs at hbc ⊢
    clear a b c
    revert hab hbc
    induction xs generalizing ys zs with
    | nil =>
      intro _ _
      rfl
    | cons x xs ih =>
      cases ys with
      | nil =>
        intro hab _
        simp [charListLe] at hab
      | cons y ys =>
        cases zs with
        | nil =>
          intro _ hbc
          simp [charListLe] at hbc
        | cons z zs =>
          intro hab hbc
          rcases Nat.lt_trichotomy x.toNat y.toNat with h1 | h1 | h1 <;>
            rcases Nat.lt_trichotomy y.toNat z.toNat with h2 | h2 | h2
          · simp [charListLe, show x.toNat < z.toNat by omega]
          · simp [charListLe, show x.toNat < z.toNat by omega]
          · simp [charListLe, show ¬ y.toNat < z.toNat by omega,
              show z.toNat < y.toNat by omega] at hbc
          · simp [charListLe, show x.toNat < z.toNat by omega]
          · simp only [charListLe, show ¬ x.toNat < y.toNat by omega,
              show ¬ y.toNat < x.toNat by omega, if_false, ite_false] at hab
            simp only [charListLe, show ¬ y.toNat < z.toNat by omega,
              show ¬ z.toNat < y.toNat by omega, if_false, ite_false] at hbc
            simp only [charListLe, show ¬ x.toNat < z.toNat by omega,
              show ¬ z.toNat < x.toNat by omega, if_false, ite_false]
            exact ih ys zs hab hbc
          · simp [charListLe, show ¬ y.toNat < z.toNat by omega,
              show z.toNat < y.toNat by omega] at hbc
          · simp [charListLe, show ¬ x.toNat < y.toNat by omega,
              show y.toNat < x.toNat by omega] at hab
          · simp [charListLe, show ¬ x.toNat < y.toNat by omega,
              show y.toNat < x.toNat by omega] at hab
          · simp [charListLe, show ¬ x.toNat < y.toNat by omega,
              show y.toNat < x.toNat by omega] at hab⟩

/-- The response `CompareItems` produces for `storeBA` on input `[1, 2]`:
the items stay in the store's order `[wItemB, wItemA]`. -/
def respBA : CompareResponse :=
  { items := [wItemB, wItemA]
    comparison :=
      { priceRange := { min := 100, max := 200 }
        ratingRange := { min := 40, max := 45 }
        commonSpecs := ["color", "material"]
        uniqueSpecs := [(2, ["brand"])] } }

theorem contains_eq_true_iff {α : Type} [BEq α] [LawfulBEq α] {l : List α} {a : α} :
    l.contains a = true ↔ a ∈ l :=
  List.elem_iff

theorem mem_sortStrings {l : List String} {x : String} : x ∈ sortStrings l ↔ x ∈ l :=
  List.mem_insertionSort strLeRel

theorem sorted_sortStrings (l : List String) : List.Sorted strLeRel (sortStrings l) :=
  List.sorted_insertionSort strLeRel l

theorem mem_uniqueIDsAux {x : Int} (ids : List Int) :
    ∀ seen, x ∈ uniqueIDsAux ids seen ↔ (x ∈ ids ∧ x ∉ seen) := by
  induction ids with
  | nil =>
    intro seen
    simp [uniqueIDsAux]
  | cons a rest ih =>
    intro seen
    by_cases h : a ∈ seen
    · rw [show uniqueIDsAux (a :: rest) seen = uniqueIDsAux rest seen from by
        simp [uniqueIDsAux, h]]
      rw [ih seen]
      simp only [List.mem_cons]
      constructor
      · rintro ⟨hx, hs⟩
        exact ⟨Or.inr hx, hs⟩
      · rintro ⟨hx | hx, hs⟩
        · exact absurd (hx ▸ h) hs
        · exact ⟨hx, hs⟩
    · rw [show uniqueIDsAux (a :: rest) seen = a :: uniqueIDsAux rest (a :: seen) from by
        simp [uniqueIDsAux, h]]
      simp only [List.mem_cons, ih (a :: seen)]
      constructor
      · rintro (rfl | ⟨hx, hs⟩)
        · exact ⟨Or.inl rfl, h⟩
        · exact ⟨Or.inr hx, fun hseen => hs (Or.inr hseen)⟩
      · rintro ⟨hx, hs⟩
        by_cases hxa : x = a
        · exact Or.inl hxa
        · rcases hx with rfl | hx
          · exact Or.inl rfl
          · refine Or.inr ⟨hx, ?_⟩
            rintro (rfl | hmem2)
            · exact hxa rfl
            · exact hs hmem2

theorem mem_uniqueIDs {x : Int} {ids : List Int} : x ∈ uniqueIDs ids ↔ x ∈ ids := by
  simpa using mem_uniqueIDsAux ids []

theorem nodup_uniqueIDsAux (ids : List Int) : ∀ seen, (uniqueIDsAux ids seen).Nodup := by
  induction ids with
  | nil =>
    intro seen
    simp [uniqueIDsAux]
  | cons a rest ih =>
    intro seen
    by_cases h : a ∈ seen
    · rw [show uniqueIDsAux (a :: rest) seen = uniqueIDsAux rest seen from by
        simp [uniqueIDsAux, h]]
      exact ih seen
    · rw [show uniqueIDsAux (a :: rest) seen = a :: uniqueIDsAux rest (a :: seen) from by
        simp [uniqueIDsAux, h]]
      refine List.nodup_cons.mpr ⟨?_, ih (a :: seen)⟩
      intro hmem
      exact ((mem_uniqueIDsAux rest (a :: seen)).mp hmem).2 (List.mem_cons_self a seen)

theorem uniqueIDs_nodup (ids : List Int) : (uniqueIDs ids).Nodup :=
  nodup_uniqueIDsAux ids []

theorem sublist_uniqueIDsAux (ids : List Int) :
    ∀ seen, (uniqueIDsAux ids seen).Sublist ids := by
  induction ids with
  | nil =>
    intro seen
    simp [uniqueIDsAux]
  | cons a rest ih =>
    intro seen
    by_cases h : a ∈ seen
    · rw [show uniqueIDsAux (a :: rest) seen = uniqueIDsAux rest seen from by
        simp [uniqueIDsAux, h]]
      exact (ih seen).cons a
    · rw [show uniqueIDsAux (a :: rest) seen = a :: uniqueIDsAux rest (a :: seen) from by
        simp [uniqueIDsAux, h]]
      exact (ih (a :: seen)).cons₂ a

theorem uniqueIDs_sublist (ids : List Int) : (uniqueIDs ids).Sublist ids :=
  sublist_uniqueIDsAux ids []

theorem uniqueIDsAux_of_nodup (ids : List Int) :
    ∀ seen, ids.Nodup → (∀ x ∈ ids, x ∉ seen) → uniqueIDsAux ids seen = ids := by
  induction ids with
  | nil =>
    intro seen _ _
    rfl
  | cons a rest ih =>
    intro seen hnd hdisj
    have ha : a ∉ seen := hdisj a (List.mem_cons_self a rest)
    rw [show uniqueIDsAux (a :: rest) seen = a :: uniqueIDsAux rest (a :: seen) from by
      simp [uniqueIDsAux, ha]]
    have hnd' := List.nodup_cons.mp hnd
    congr 1
    refine ih (a :: seen) hnd'.2 ?_
    intro x hx hmem
    rcases List.mem_cons.mp hmem with rfl | hmem2
    · exact hnd'.1 hx
    · exact hdisj x (List.mem_cons_of_mem a hx) hmem2

theorem uniqueIDs_of_nodup {ids : List Int} (h : ids.Nodup) : uniqueIDs ids = ids :=
  uniqueIDsAux_of_nodup ids [] h (by simp)

theorem uniqueIDs_idem (ids : List Int) : uniqueIDs (uniqueIDs ids) = uniqueIDs ids :=
  uniqueIDs_of_nodup (uniqueIDs_nodup ids)

theorem uniqueIDsAux_congr (ids : List Int) :
    ∀ seen₁ seen₂, (∀ x : Int, x ∈ seen₁ ↔ x ∈ seen₂) →
      uniqueIDsAux ids seen₁ = uniqueIDsAux ids seen₂ := by
  induction ids with
  | nil =>
    intro seen₁ seen₂ _
    rfl
  | cons a rest ih =>
    intro seen₁ seen₂ hiff
    by_cases h : a ∈ seen₁
    · rw [show uniqueIDsAux (a :: rest) seen₁ = uniqueIDsAux rest seen₁ from by
        simp [uniqueIDsAux, h]]
      rw [show uniqueIDsAux (a :: rest) seen₂ = uniqueIDsAux rest seen₂ from by
        simp [uniqueIDsAux, (hiff a).mp h]]
      exact ih seen₁ seen₂ hiff
    · have h₂ : a ∉ seen₂ := fun hmem => h ((hiff a).mpr hmem)
      rw [show uniqueIDsAux (a :: rest) seen₁ = a :: uniqueIDsAux rest (a :: seen₁) from by
        simp [uniqueIDsAux, h]]
      rw [show uniqueIDsAux (a :: rest) seen₂ = a :: uniqueIDsAux rest (a :: seen₂) from by
        simp [uniqueIDsAux, h₂]]
      congr 1
      refine ih (a :: seen₁) (a :: seen₂) ?_
      intro x
      simp [List.mem_cons, hiff x]

theorem uniqueIDsAux_filter (a : Int) (ids : List Int) :
    ∀ seen, uniqueIDsAux (ids.filter (fun x => x != a)) seen = uniqueIDsAux ids (a :: seen) := by
  induction ids with
  | nil =>
    intro seen
    rfl
  | cons x rest ih =>
    intro seen
    by_cases hxa : x = a
    · subst hxa
      rw [show (x :: rest).filter (fun y => y != x) = rest.filter (fun y => y != x) from by
        simp [List.filter_cons]]
      rw [show uniqueIDsAux (x :: rest) (x :: seen) = uniqueIDsAux rest (x :: seen) from by
        simp [uniqueIDsAux]]
      exact ih seen
    · rw [show (x :: rest).filter (fun y => y != a) = x :: rest.filter (fun y => y != a) from by
        simp [List.filter_cons, hxa]]
      by_cases hseen : x ∈ seen
      · rw [show uniqueIDsAux (x :: rest.filter (fun y => y != a)) seen
            = uniqueIDsAux (rest.filter (fun y => y != a)) seen from by
          simp [uniqueIDsAux, hseen]]
        rw [show uniqueIDsAux (x :: rest) (a :: seen)
            = uniqueIDsAux rest (a :: seen) from by
          simp [uniqueIDsAux, List.mem_cons, hseen]]
        exact ih seen
      · have hxas : x ∉ a :: seen := by
          intro hmem
          rcases List.mem_cons.mp hmem with h1 | h2
          · exact hxa h1
          · exact hseen h2
        rw [show uniqueIDsAux (x :: rest.filter (fun y => y != a)) seen
            = x :: uniqueIDsAux (rest.filter (fun y => y != a)) (x :: seen) from by
          simp [uniqueIDsAux, hseen]]
        rw [show uniqueIDsAux (x :: rest) (a :: seen)
            = x :: uniqueIDsAux rest (x :: a :: seen) from by
          simp [uniqueIDsAux, hxas]]
        congr 1
        rw [ih (x :: seen)]
        refine uniqueIDsAux_congr rest (a :: x :: seen) (x :: a :: seen) ?_
        intro y
        simp [List.mem_cons]
        tauto

theorem uniqueIDs_eq_dedupFirstOccurrence (ids : List Int) :
    uniqueIDs ids = dedupFirstOccurrence ids := by
  induction ids using dedupFirstOccurrence.induct with
  | case1 =>
    rw [dedupFirstOccurrence]
    rfl
  | case2 a rest ih =>
    rw [dedupFirstOccurrence]
    rw [show uniqueIDs (a :: rest) = a :: uniqueIDsAux rest [a] from by
      simp [uniqueIDs, uniqueIDsAux]]
    rw [← ih]
    congr 1
    rw [show uniqueIDs (rest.filter (fun x => x != a))
        = uniqueIDsAux (rest.filter (fun x => x != a)) [] from rfl]
    exact (uniqueIDsAux_filter a rest []).symm

theorem compareItems_storeError {store : List Int → Except GoError (List Item)}
    {ids : List Int} {e : GoError} (h2 : 2 ≤ ids.length) (h10 : ids.length ≤ 10)
    (hst : store (uniqueIDs ids) = Except.error e) :
    CompareItems store ids
      = Except.error
          (NewInternalServerError "error al obtener los items para comparación" (some e)) := by
  unfold CompareItems
  rw [if_neg (by omega), if_neg (by omega)]
  simp only [hst]

theorem compareItems_notFound {store : List Int → Except GoError (List Item)}
    {ids : List Int} {items : List Item} (h2 : 2 ≤ ids.length) (h10 : ids.length ≤ 10)
    (hst : store (uniqueIDs ids) = Except.ok items)
    (hne : items.length ≠ (uniqueIDs ids).length) :
    CompareItems store ids
      = Except.error
          (NewNotFoundError
            ("Items con IDs " ++ goIntSliceStr (missingItemIDs (uniqueIDs ids) items)
              ++ " no encontrados")
            "<nil>") := by
  unfold CompareItems
  rw [if_neg (by omega), if_neg (by omega)]
  simp only [hst]
  rw [if_pos hne]

theorem compareItems_ok_of {store : List Int → Except GoError (List Item)}
    {ids : List Int} {items : List Item} (h2 : 2 ≤ ids.length) (h10 : ids.length ≤ 10)
    (hst : store (uniqueIDs ids) = Except.ok items)
    (hlen : items.length = (uniqueIDs ids).length) :
    CompareItems store ids
      = Except.ok { items := items, comparison := generateComparison items } := by
  unfold CompareItems
  rw [if_neg (by omega), if_neg (by omega)]
  simp only [hst]
  rw [if_neg (by omega)]

theorem compareItems_ok_inv {store : List Int → Except GoError (List Item)}
    {ids : List Int} {resp : CompareResponse}
    (h : CompareItems store ids = Except.ok resp) :
    2 ≤ ids.length ∧ ids.length ≤ 10 ∧
      store (uniqueIDs ids) = Except.ok resp.items ∧
      resp.items.length = (uniqueIDs ids).length ∧
      resp.comparison = generateComparison resp.items := by
  unfold CompareItems at h
  dsimp only at h
  by_cases h2 : ids.length < 2
  · rw [if_pos h2] at h
    exact absurd h (by simp)
  · rw [if_neg h2] at h
    by_cases h10 : ids.length > 10
    · rw [if_pos h10] at h
      exact absurd h (by simp)
    · rw [if_neg h10] at h
      cases hst : store (uniqueIDs ids) with
      | error e =>
        rw [hst] at h
        exact absurd h (by simp)
      | ok items =>
        rw [hst] at h
        dsimp only at h
        by_cases hlen : items.length ≠ (uniqueIDs ids).length
        · rw [if_pos hlen] at h
          exact absurd h (by simp)
        · rw [if_neg hlen] at h
          simp only [Except.ok.injEq] at h
          subst h
          exact ⟨by omega, by omega, rfl, by simpa using not_ne_iff.mp hlen, rfl⟩

theorem specCount_eq_length_iff (items : List Item) (name : String) :
    specCount items name = items.length
      ↔ ∀ it ∈ items, name ∈ mapKeys it.specifications := by
  unfold specCount
  constructor
  · intro h
    have hf := List.Sublist.eq_of_length (List.filter_sublist items) h
    intro it hit
    have hp := (List.filter_eq_self.mp hf) it hit
    exact contains_eq_true_iff.mp hp
  · intro h
    have hf : items.filter (fun it => (mapKeys it.specifications).contains name) = items :=
      List.filter_eq_self.mpr fun it hit => contains_eq_true_iff.mpr (h it hit)
    rw [hf]

theorem mem_specAllKeys {items : List Item} {name : String} :
    name ∈ specAllKeys items ↔ ∃ it ∈ items, name ∈ mapKeys it.specifications := by
  simp [specAllKeys, List.mem_dedup, List.mem_flatMap]

theorem mem_findCommonSpecs {items : List Item} (hne : items ≠ []) {name : String} :
    name ∈ findCommonSpecs items ↔ ∀ it ∈ items, name ∈ mapKeys it.specifications := by
  unfold findCommonSpecs
  rw [if_neg (by simpa [List.isEmpty_iff] using hne)]
  rw [mem_sortStrings, List.mem_filter]
  constructor
  · rintro ⟨_, hcnt⟩
    exact (specCount_eq_length_iff items name).mp (by simpa using hcnt)
  · intro h
    obtain ⟨it, hit⟩ := List.exists_mem_of_ne_nil items hne
    refine ⟨mem_specAllKeys.mpr ⟨it, hit, h it hit⟩, ?_⟩
    simpa using (specCount_eq_length_iff items name).mpr h

theorem sorted_findCommonSpecs (items : List Item) :
    List.Sorted strLeRel (findCommonSpecs items) := by
  unfold findCommonSpecs
  by_cases h : items.isEmpty
  · rw [if_pos h]
    exact List.sorted_nil
  · rw [if_neg h]
    exact sorted_sortStrings _

theorem specOwners_eq_of_nodup {items : List Item}
    (hnd : (items.map Item.id).Nodup) (key : String) :
    specOwners items key
      = (items.filter (fun it => (mapKeys it.specifications).contains key)).map Item.id := by
  unfold specOwners
  exact List.dedup_eq_self.mpr
    (List.Nodup.sublist ((List.filter_sublist items).map Item.id) hnd)

theorem mem_uniqueSpecKeys {items : List Item} {k : String} :
    k ∈ uniqueSpecKeys items
      ↔ k ∈ specAllKeys items ∧ (specOwners items k).length = 1 := by
  simp [uniqueSpecKeys, List.mem_filter]

theorem mem_uniqueOwnerIDs {items : List Item} {X : Int} :
    X ∈ uniqueOwnerIDs items ↔ ∃ k ∈ uniqueSpecKeys items, X ∈ specOwners items k := by
  simp [uniqueOwnerIDs, List.mem_dedup, List.mem_flatMap]

theorem mem_findUniqueSpecs_entry {items : List Item} {X : Int} {l : List String} :
    (X, l) ∈ findUniqueSpecs items
      ↔ X ∈ uniqueOwnerIDs items ∧
          l = sortStrings
                ((uniqueSpecKeys items).filter
                  (fun k => (specOwners items k).contains X)) := by
  unfold findUniqueSpecs
  rw [List.mem_map]
  constructor
  · rintro ⟨id, hid, heq⟩
    rw [Prod.mk.injEq] at heq
    obtain ⟨rfl, rfl⟩ := heq
    exact ⟨hid, rfl⟩
  · rintro ⟨hX, rfl⟩
    exact ⟨X, hX, rfl⟩

theorem getItemByID_invalid {store : Int → Except GoError Item} {id : Int}
    (h : id ≤ 0) :
    GetItemByID store id = Except.error (NewValidationError "ID inválido" none) := by
  unfold GetItemByID
  rw [if_pos h]

theorem getItemByID_absent {store : Int → Except GoError Item} {id : Int}
    (hpos : 0 < id) (hst : store id = Except.error GoError.errNotFound) :
    GetItemByID store id = Except.error (NewNotFoundError "Item" (toString id)) := by
  unfold GetItemByID
  rw [if_neg (by omega)]
  simp [hst]

theorem getItemByID_storeFail {store : Int → Except GoError Item} {id : Int}
    {e : GoError} (hpos : 0 < id) (hst : store id = Except.error e)
    (hne : e ≠ GoError.errNotFound) :
    GetItemByID store id
      = Except.error (NewInternalServerError "error al obtener el item" (some e)) := by
  unfold GetItemByID
  rw [if_neg (by omega)]
  simp only [hst]
  rw [if_neg hne]

theorem getAllItems_fail {store : Unit → Except GoError (List Item)} {e : GoError}
    (hst : store () = Except.error e) :
    GetAllItems store
      = Except.error (NewInternalServerError "error al obtener los items" (some e)) := by
  unfold GetAllItems
  simp only [hst]

theorem generateComparison_nonempty {items : List Item} (hne : items ≠ []) :
    (generateComparison items).commonSpecs = findCommonSpecs items ∧
    (generateComparison items).uniqueSpecs = findUniqueSpecs items := by
  unfold generateComparison
  rw [if_neg (by simpa [List.isEmpty_iff] using hne)]
  exact ⟨rfl, rfl⟩

/-- Claim C1, amended: `CompareItems` checks the cardinality bounds on the raw
input length, before deduplication; any sequence whose raw length is below 2
or above 10 is rejected with the corresponding validation error, and the
result does not depend on the store (the store is never queried). -/
theorem compare_validates_raw_length (store : List Int → Except GoError (List Item))
    (ids : List Int) (h : ids.length < 2 ∨ 10 < ids.length) :
    CompareItems store ids
      = Except.error
          (NewValidationError
            (if ids.length < 2 then "se requieren al menos 2 items para comparar"
             else "máximo 10 items pueden compararse a la vez")
            none) := by
  unfold CompareItems
  by_cases h2 : ids.length < 2
  · rw [if_pos h2, if_pos h2]
  · rw [if_neg h2, if_neg h2, if_pos (by omega)]

/-- Claim C1, witness for the amended theorem at the single-element input
`[1]` with a concrete store. -/
theorem compare_validates_raw_length_witness :
    (([1] : List Int).length < 2 ∨ 10 < ([1] : List Int).length) ∧
    CompareItems storeOnlyA [1]
      = Except.error
          (NewValidationError
            (if ([1] : List Int).length < 2 then "se requieren al menos 2 items para comparar"
             else "máximo 10 items pueden compararse a la vez")
            none) :=
  ⟨Or.inl (by decide), compare_validates_raw_length storeOnlyA [1] (Or.inl (by decide))⟩

/-- Claim C1, counterexample to the claim as stated: `[1, 1]` has a single
distinct identifier yet `CompareItems` succeeds (so the store was queried and
no validation error was produced), and the 11-element sequence
`[1,1,2,2,3,3,4,4,5,5,6]` has only 6 distinct identifiers yet is rejected:
the cardinality check uses the raw length, not the distinct count. -/
theorem compare_distinct_cardinality_cx :
    (uniqueIDs [1, 1]).length = 1 ∧
    (CompareItems storeOnlyA [1, 1]).isOk = true ∧
    (uniqueIDs [1, 1, 2, 2, 3, 3, 4, 4, 5, 5, 6]).length = 6 ∧
    CompareItems storeOnlyA [1, 1, 2, 2, 3, 3, 4, 4, 5, 5, 6]
      = Except.error
          (NewValidationError "máximo 10 items pueden compararse a la vez" none) := by
  decide

/-- Claim C2, amended: for every successful comparison that resolves at least
two items with pairwise-distinct identifiers, the common-specs set and every
per-item unique-specs list are disjoint. (The unamended claim fails on the
reachable single-item comparison `Compare([1,1])`.) -/
theorem compare_common_unique_disjoint (store : List Int → Except GoError (List Item))
    (ids : List Int) (resp : CompareResponse)
    (h : CompareItems store ids = Except.ok resp)
    (h2 : 2 ≤ resp.items.length)
    (hnd : (resp.items.map Item.id).Nodup) :
    ∀ name ∈ resp.comparison.commonSpecs, ∀ p ∈ resp.comparison.uniqueSpecs, name ∉ p.2 := by
  obtain ⟨-, -, -, -, hcomp⟩ := compareItems_ok_inv h
  have hne : resp.items ≠ [] := by
    intro hnil
    rw [hnil] at h2
    simp at h2
  obtain ⟨hcsp, husp⟩ := generateComparison_nonempty hne
  intro name hname p hp hmem
  rw [hcomp, hcsp] at hname
  rw [hcomp, husp] at hp
  obtain ⟨X, l⟩ := p
  rw [mem_findUniqueSpecs_entry] at hp
  obtain ⟨hX, rfl⟩ := hp
  rw [mem_sortStrings, List.mem_filter] at hmem
  have hkeylen := (mem_uniqueSpecKeys.mp hmem.1).2
  have hall := (mem_findCommonSpecs hne).mp hname
  have hfilter :
      resp.items.filter (fun it => (mapKeys it.specifications).contains name)
        = resp.items :=
    List.filter_eq_self.mpr fun it hit => contains_eq_true_iff.mpr (hall it hit)
  have howners : specOwners resp.items name = resp.items.map Item.id := by
    rw [specOwners_eq_of_nodup hnd, hfilter]
  rw [howners, List.length_map] at hkeylen
  omega

/-- Claim C2, witness for the amended theorem: a successful two-item
comparison whose common and unique spec lists are disjoint. -/
theorem compare_common_unique_disjoint_witness :
    CompareItems storeBA [1, 2] = Except.ok respBA ∧
    (∀ name ∈ respBA.comparison.commonSpecs,
      ∀ p ∈ respBA.comparison.uniqueSpecs, name ∉ p.2) :=
  ⟨by decide,
   compare_common_unique_disjoint storeBA [1, 2] respBA (by decide) (by decide) (by decide)⟩

/-- Claim C2, counterexample to the claim as stated: `Compare([1,1])` against
a store holding item 1 succeeds with a single resolved item, and both of that
item's keys appear in the common-specs set and in its unique-specs list. -/
theorem compare_common_unique_overlap_cx :
    CompareItems storeOnlyA [1, 1] = Except.ok respSingleA ∧
    ¬ (∀ name ∈ respSingleA.comparison.commonSpecs,
        ∀ p ∈ respSingleA.comparison.uniqueSpecs, name ∉ p.2) := by
  constructor
  · decide
  · decide

/-- Claim C3, amended: the aggregator does not sort; the items of a
successful comparison are exactly the list the store returned, in the store's
order (the SQLite repository's `GetByIDs` query orders by identifier, so with
that store the response is ascending, but the engine itself preserves
whatever order the store supplies). -/
theorem compare_items_follow_store_order (store : List Int → Except GoError (List Item))
    (ids : List Int) (resp : CompareResponse)
    (h : CompareItems store ids = Except.ok resp) :
    store (uniqueIDs ids) = Except.ok resp.items :=
  (compareItems_ok_inv h).2.2.1

/-- Claim C3, witness for the amended theorem at a concrete store. -/
theorem compare_items_follow_store_order_witness :
    storeBA (uniqueIDs [1, 2]) = Except.ok respBA.items :=
  compare_items_follow_store_order storeBA [1, 2] respBA (by decide)

/-- Claim C3, counterexample to the claim as stated: a store that returns the
two requested items in descending identifier order yields a successful
comparison whose items are not sorted ascending by identifier. -/
theorem compare_items_sorted_cx :
    CompareItems storeBA [1, 2] = Except.ok respBA ∧
    respBA.items.map Item.id = [2, 1] ∧
    ¬ List.Pairwise (fun a b => a ≤ b) (respBA.items.map Item.id) := by
  refine ⟨by decide, by decide, by decide⟩

/-- Claim C4: for every non-empty item list, an attribute name is in
`findCommonSpecs` iff it is a key of every item's specification mapping (the
characterisation only looks at keys, never at attribute values), and the
result is sorted lexicographically ascending. -/
theorem findCommonSpecs_characterization (items : List Item) (hne : items ≠ []) :
    (∀ name : String,
        name ∈ findCommonSpecs items ↔ ∀ it ∈ items, name ∈ mapKeys it.specifications) ∧
    List.Pairwise strLeRel (findCommonSpecs items) :=
  ⟨fun _ => mem_findCommonSpecs hne, sorted_findCommonSpecs items⟩

/-- Claim C4, witness at a concrete two-item list. -/
theorem findCommonSpecs_characterization_witness :
    (("color" ∈ findCommonSpecs [wItemA, wItemB]
        ↔ ∀ it ∈ [wItemA, wItemB], "color" ∈ mapKeys it.specifications) ∧
      List.Pairwise strLeRel (findCommonSpecs [wItemA, wItemB])) :=
  ⟨(findCommonSpecs_characterization [wItemA, wItemB] (by decide)).1 "color",
   (findCommonSpecs_characterization [wItemA, wItemB] (by decide)).2⟩

/-- Claim C5, amended: for every non-empty item list whose identifiers are
pairwise distinct, an attribute name appears in the unique-specs list of
identifier X iff the items whose specification mapping contains the name are
exactly the single item with identifier X; every stored list is sorted
lexicographically and non-empty (identifiers without unique keys are never
inserted). (The unamended claim fails when two list entries share an
identifier.) -/
theorem findUniqueSpecs_characterization (items : List Item) (_hne : items ≠ [])
    (hnd : (items.map Item.id).Nodup) :
    (∀ (name : String) (X : Int),
        (∃ l, (X, l) ∈ findUniqueSpecs items ∧ name ∈ l)
          ↔ (items.filter
              (fun it => (mapKeys it.specifications).contains name)).map Item.id = [X]) ∧
    (∀ p ∈ findUniqueSpecs items, List.Pairwise strLeRel p.2 ∧ p.2 ≠ []) := by
  constructor
  · intro name X
    constructor
    · rintro ⟨l, hmem, hname⟩
      rw [mem_findUniqueSpecs_entry] at hmem
      obtain ⟨hX, rfl⟩ := hmem
      rw [mem_sortStrings, List.mem_filter] at hname
      obtain ⟨hkey, hcont⟩ := hname
      have hXo : X ∈ specOwners items name := contains_eq_true_iff.mp hcont
      have hlen1 : (specOwners items name).length = 1 := (mem_uniqueSpecKeys.mp hkey).2
      obtain ⟨y, hy⟩ := List.length_eq_one.mp hlen1
      rw [hy] at hXo
      obtain rfl := List.mem_singleton.mp hXo
      rw [← specOwners_eq_of_nodup hnd]
      exact hy
    · intro h
      have howners : specOwners items name = [X] := by
        rw [specOwners_eq_of_nodup hnd]
        exact h
      have hXo : X ∈ specOwners items name := by
        rw [howners]
        exact List.mem_singleton_self X
      have hlen1 : (specOwners items name).length = 1 := by
        rw [howners]
        rfl
      have hkeyall : name ∈ specAllKeys items := by
        have hfne :
            items.filter (fun it => (mapKeys it.specifications).contains name) ≠ [] := by
          intro h0
          rw [h0] at h
          simp at h
        obtain ⟨it, hit⟩ := List.exists_mem_of_ne_nil _ hfne
        have hsplit := List.mem_filter.mp hit
        exact mem_specAllKeys.mpr ⟨it, hsplit.1, contains_eq_true_iff.mp hsplit.2⟩
      have hkey : name ∈ uniqueSpecKeys items := mem_uniqueSpecKeys.mpr ⟨hkeyall, hlen1⟩
      refine ⟨sortStrings
        ((uniqueSpecKeys items).filter (fun k => (specOwners items k).contains X)),
        ?_, ?_⟩
      · rw [mem_findUniqueSpecs_entry]
        exact ⟨mem_uniqueOwnerIDs.mpr ⟨name, hkey, hXo⟩, rfl⟩
      · rw [mem_sortStrings, List.mem_filter]
        exact ⟨hkey, contains_eq_true_iff.mpr hXo⟩
  · rintro ⟨X, l⟩ hp
    rw [mem_findUniqueSpecs_entry] at hp
    obtain ⟨hX, rfl⟩ := hp
    refine ⟨sorted_sortStrings _, ?_⟩
    obtain ⟨k, hk, hXo⟩ := mem_uniqueOwnerIDs.mp hX
    intro hnil
    dsimp only at hnil
    have hkin : k ∈ sortStrings
        ((uniqueSpecKeys items).filter (fun k2 => (specOwners items k2).contains X)) := by
      rw [mem_sortStrings, List.mem_filter]
      exact ⟨hk, contains_eq_true_iff.mpr hXo⟩
    rw [hnil] at hkin
    exact List.not_mem_nil k hkin

/-- Claim C5, witness for the amended theorem: in the two-item list
`[wItemA, wItemB]`, "brand" is unique to identifier 2, and every stored list
is sorted and non-empty. -/
theorem findUniqueSpecs_characterization_witness :
    ((∃ l, ((2 : Int), l) ∈ findUniqueSpecs [wItemA, wItemB] ∧ "brand" ∈ l)
        ↔ ([wItemA, wItemB].filter
            (fun it => (mapKeys it.specifications).contains "brand")).map Item.id
            = [(2 : Int)]) ∧
    (∀ p ∈ findUniqueSpecs [wItemA, wItemB], List.Pairwise strLeRel p.2 ∧ p.2 ≠ []) :=
  ⟨(findUniqueSpecs_characterization [wItemA, wItemB] (by decide) (by decide)).1 "brand" 2,
   (findUniqueSpecs_characterization [wItemA, wItemB] (by decide) (by decide)).2⟩

/-- Claim C5, counterexample to the claim as stated: in the item list
`[wItemDup, wItemDup]` (two entries sharing identifier 7), the key "a" is a
key of two resolved items' specification mappings — not exactly one — yet it
appears under identifier 7 in `findUniqueSpecs`, because the ownership map is
keyed by identifier, not by list entry. -/
theorem findUniqueSpecs_exactly_one_cx :
    ((7 : Int), ["a"]) ∈ findUniqueSpecs [wItemDup, wItemDup] ∧
    ([wItemDup, wItemDup].filter
        (fun it => (mapKeys it.specifications).contains "a")).length = 2 := by
  decide

/-- Claim C6: for a validated request, when the store returns fewer items
than the number of distinct requested identifiers, `CompareItems` fails with
the not-found error built from `missingItemIDs`, and an identifier is in that
missing list iff it was requested and is not the identifier of any returned
item — a set-difference characterisation independent of position. -/
theorem compare_missing_ids_notFound (store : List Int → Except GoError (List Item))
    (ids : List Int) (items : List Item)
    (h2 : 2 ≤ ids.length) (h10 : ids.length ≤ 10)
    (hst : store (uniqueIDs ids) = Except.ok items)
    (hlt : items.length < (uniqueIDs ids).length) :
    CompareItems store ids
      = Except.error
          (NewNotFoundError
            ("Items con IDs " ++ goIntSliceStr (missingItemIDs (uniqueIDs ids) items)
              ++ " no encontrados")
            "<nil>") ∧
    (∀ id : Int,
        id ∈ missingItemIDs (uniqueIDs ids) items
          ↔ (id ∈ uniqueIDs ids ∧ id ∉ items.map Item.id)) := by
  refine ⟨compareItems_notFound h2 h10 hst (by omega), ?_⟩
  intro id
  simp only [missingItemIDs, List.mem_filter, Bool.not_eq_true']
  constructor
  · rintro ⟨h1, hcf⟩
    have hnc : ¬ ((items.map Item.id).contains id = true) := by
      rw [hcf]
      exact Bool.false_ne_true
    exact ⟨h1, fun hmem => hnc (contains_eq_true_iff.mpr hmem)⟩
  · rintro ⟨h1, hnm⟩
    refine ⟨h1, ?_⟩
    rw [← Bool.not_eq_true]
    exact fun hc => hnm (contains_eq_true_iff.mp hc)

/-- Claim C6, witness: requesting `[1, 2, 3]` against a store that returns
only items 1 and 2 yields the not-found error, and 3 is in the missing list
iff it was requested and unreturned. -/
theorem compare_missing_ids_notFound_witness :
    CompareItems storeMissing3 [1, 2, 3]
      = Except.error
          (NewNotFoundError
            ("Items con IDs "
              ++ goIntSliceStr (missingItemIDs (uniqueIDs [1, 2, 3]) [wItemA, wItemB])
              ++ " no encontrados")
            "<nil>") ∧
    ((3 : Int) ∈ missingItemIDs (uniqueIDs [1, 2, 3]) [wItemA, wItemB]
      ↔ ((3 : Int) ∈ uniqueIDs [1, 2, 3] ∧ (3 : Int) ∉ [wItemA, wItemB].map Item.id)) :=
  ⟨(compare_missing_ids_notFound storeMissing3 [1, 2, 3] [wItemA, wItemB]
      (by decide) (by decide) (by decide) (by decide)).1,
   (compare_missing_ids_notFound storeMissing3 [1, 2, 3] [wItemA, wItemB]
      (by decide) (by decide) (by decide) (by decide)).2 3⟩

/-- Claim C7: `GetItemByID` rejects non-positive identifiers with a
validation error whose value does not depend on the store (so the store is
never accessed), translates store-reported absence into a not-found error
naming the identifier, and wraps every other store failure as an
internal-server (storage) error carrying the underlying cause. -/
theorem getItemByID_error_taxonomy (store : Int → Except GoError Item) (id : Int) :
    (id ≤ 0 →
      GetItemByID store id = Except.error (NewValidationError "ID inválido" none)) ∧
    (0 < id → store id = Except.error GoError.errNotFound →
      GetItemByID store id = Except.error (NewNotFoundError "Item" (toString id))) ∧
    (∀ e : GoError, 0 < id → store id = Except.error e → e ≠ GoError.errNotFound →
      GetItemByID store id
        = Except.error (NewInternalServerError "error al obtener el item" (some e))) :=
  ⟨fun h => getItemByID_invalid h,
   fun hpos hst => getItemByID_absent hpos hst,
   fun _ hpos hst hne => getItemByID_storeFail hpos hst hne⟩

/-- Claim C7, witness: the three branches at identifiers 0, 1 and 2 of a
concrete store. -/
theorem getItemByID_error_taxonomy_witness :
    GetItemByID storeOneMixed 0 = Except.error (NewValidationError "ID inválido" none) ∧
    GetItemByID storeOneMixed 1
      = Except.error (NewNotFoundError "Item" (toString (1 : Int))) ∧
    GetItemByID storeOneMixed 2
      = Except.error
          (NewInternalServerError "error al obtener el item"
            (some (GoError.other "sql: connection is already closed"))) :=
  ⟨(getItemByID_error_taxonomy storeOneMixed 0).1 (by decide),
   (getItemByID_error_taxonomy storeOneMixed 1).2.1 (by decide) (by decide),
   (getItemByID_error_taxonomy storeOneMixed 2).2.2
     (GoError.other "sql: connection is already closed") (by decide) (by decide) (by decide)⟩

/-- Claim C8, amended: when a store call fails because the caller's context
was cancelled, each engine operation returns the generic internal-server
(storage) domain error of that operation with the cancellation error wrapped
as its cause (recoverable through the error's unwrap field); the bare
cancellation signal itself is not passed through. -/
theorem cancellation_wrapped_as_storage
    (storeAll : Unit → Except GoError (List Item))
    (storeOne : Int → Except GoError Item)
    (storeMany : List Int → Except GoError (List Item))
    (id : Int) (ids : List Int) :
    (storeAll () = Except.error GoError.ctxCanceled →
      GetAllItems storeAll
        = Except.error
            (NewInternalServerError "error al obtener los items"
              (some GoError.ctxCanceled))) ∧
    (0 < id → storeOne id = Except.error GoError.ctxCanceled →
      GetItemByID storeOne id
        = Except.error
            (NewInternalServerError "error al obtener el item"
              (some GoError.ctxCanceled))) ∧
    (2 ≤ ids.length → ids.length ≤ 10 →
      storeMany (uniqueIDs ids) = Except.error GoError.ctxCanceled →
      CompareItems storeMany ids
        = Except.error
            (NewInternalServerError "error al obtener los items para comparación"
              (some GoError.ctxCanceled))) :=
  ⟨fun hst => getAllItems_fail hst,
   fun hpos hst => getItemByID_storeFail hpos hst (by decide),
   fun h2 h10 hst => compareItems_storeError h2 h10 hst⟩

/-- Claim C8, witness: concrete cancelled store calls for each operation. -/
theorem cancellation_wrapped_as_storage_witness :
    GetAllItems storeAllCanceled
      = Except.error
          (NewInternalServerError "error al obtener los items"
            (some GoError.ctxCanceled)) ∧
    GetItemByID (fun _ => Except.error GoError.ctxCanceled) 1
      = Except.error
          (NewInternalServerError "error al obtener el item"
            (some GoError.ctxCanceled)) ∧
    CompareItems (fun _ => Except.error GoError.ctxCanceled) [1, 2]
      = Except.error
          (NewInternalServerError "error al obtener los items para comparación"
            (some GoError.ctxCanceled)) :=
  ⟨(cancellation_wrapped_as_storage storeAllCanceled
      (fun _ => Except.error GoError.ctxCanceled)
      (fun _ => Except.error GoError.ctxCanceled) 1 [1, 2]).1 rfl,
   (cancellation_wrapped_as_storage storeAllCanceled
      (fun _ => Except.error GoError.ctxCanceled)
      (fun _ => Except.error GoError.ctxCanceled) 1 [1, 2]).2.1 (by decide) rfl,
   (cancellation_wrapped_as_storage storeAllCanceled
      (fun _ => Except.error GoError.ctxCanceled)
      (fun _ => Except.error GoError.ctxCanceled) 1 [1, 2]).2.2
     (by decide) (by decide) rfl⟩

/-- Claim C8, counterexample to the claim as stated: a full-scan store call
that fails with the cancellation signal is answered with a domain error whose
code is the generic internal-server (storage) kind — the engine translates
the cancellation into a generic storage failure (while keeping it as the
wrapped cause) instead of surfacing the cancellation signal itself. -/
theorem cancellation_translated_cx :
    GetAllItems storeAllCanceled
      = Except.error
          (NewInternalServerError "error al obtener los items"
            (some GoError.ctxCanceled)) ∧
    (NewInternalServerError "error al obtener los items"
        (some GoError.ctxCanceled)).code = ErrorCode.internalServer := by
  decide

/-- Claim C9: deduplication is order-stable (it agrees with the reference
first-occurrence formulation, produces a duplicate-free subsequence of the
input with the same membership) and idempotent; in particular
`[1,2,1]` deduplicates to `[1,2]`, so `CompareItems` on `[1,2,1]` and on
`[1,2]` issues the same store query and returns identical results for every
store. -/
theorem uniqueIDs_order_stable_idempotent
    (store : List Int → Except GoError (List Item)) (ids : List Int) :
    uniqueIDs ids = dedupFirstOccurrence ids ∧
    (uniqueIDs ids).Nodup ∧
    (uniqueIDs ids).Sublist ids ∧
    (∀ x : Int, x ∈ uniqueIDs ids ↔ x ∈ ids) ∧
    uniqueIDs (uniqueIDs ids) = uniqueIDs ids ∧
    uniqueIDs [1, 2, 1] = [1, 2] ∧
    uniqueIDs [1, 2, 1] = uniqueIDs [1, 2] ∧
    CompareItems store [1, 2, 1] = CompareItems store [1, 2] :=
  ⟨uniqueIDs_eq_dedupFirstOccurrence ids, uniqueIDs_nodup ids, uniqueIDs_sublist ids,
   fun _ => mem_uniqueIDs, uniqueIDs_idem ids, by decide, by decide, rfl⟩

/-- Claim C10: for a validated request whose store call succeeds, the
completeness check is count-only — when the returned count equals the number
of distinct requested identifiers the result is accepted and returned
verbatim (identifiers are never compared), and when the counts differ the
result is the not-found error. -/
theorem compare_completeness_count_only
    (store : List Int → Except GoError (List Item)) (ids : List Int)
    (items : List Item)
    (h2 : 2 ≤ ids.length) (h10 : ids.length ≤ 10)
    (hst : store (uniqueIDs ids) = Except.ok items) :
    (items.length = (uniqueIDs ids).length →
      CompareItems store ids
        = Except.ok { items := items, comparison := generateComparison items }) ∧
    (items.length ≠ (uniqueIDs ids).length →
      CompareItems store ids
        = Except.error
            (NewNotFoundError
              ("Items con IDs " ++ goIntSliceStr (missingItemIDs (uniqueIDs ids) items)
                ++ " no encontrados")
              "<nil>")) :=
  ⟨fun hlen => compareItems_ok_of h2 h10 hst hlen,
   fun hne => compareItems_notFound h2 h10 hst hne⟩

/-- Claim C10, witness: requesting `[1, 2]` against a store that returns the
two items with identifiers 5 and 6 — the right count, the wrong identifiers —
is accepted, and the stray items are returned as the comparison's items. -/
theorem compare_completeness_count_only_witness :
    CompareItems storeWrongIDs [1, 2]
      = Except.ok
          { items := [wItemX, wItemY], comparison := generateComparison [wItemX, wItemY] } ∧
    [wItemX, wItemY].map Item.id = [5, 6] :=
  ⟨(compare_completeness_count_only storeWrongIDs [1, 2] [wItemX, wItemY]
      (by decide) (by decide) (by decide)).1 (by decide),
   by decide⟩

end ProductAPI
